import Mathlib

/-!
Verification of the address-resolution core of the Country-validation
repository (backend `server.js`, the version of the validate-address route
that supports house-number interpolation, together with its suggestion
routes).  Coordinates and distances are modelled over `ℝ` (the JavaScript
code computes with IEEE doubles; the embedding idealises them as reals and
notes, at each definition, the one place where the two can differ, namely
division by zero, which is `0` in Lean and `NaN` in JavaScript).
-/

namespace AddrVal

/-! ## Character and string helpers (from `normalize`, `isGeorgia`,
`parseInt(houseNumber.replace(/\D/g, ""), 10)` in `server.js`) -/

/-- Latin lower-case letter test, the `a-z` part of the regex
`[^a-z0-9ა-ჰ]` in `normalize`.  Comparisons are on code points. -/
def latinLowerB (c : Char) : Bool := 97 ≤ c.toNat && c.toNat ≤ 122

/-- Latin upper-case letter test (`A`–`Z`), used to model
`String.prototype.toLowerCase`. -/
def latinUpperB (c : Char) : Bool := 65 ≤ c.toNat && c.toNat ≤ 90

/-- ASCII digit test, the `0-9` part of the regex in `normalize` and the
`\d` class used when parsing the house number. -/
def digitB (c : Char) : Bool := 48 ≤ c.toNat && c.toNat ≤ 57

/-- Georgian Mkhedruli letter test, the `ა-ჰ` (U+10D0–U+10F0) part of the
regex in `normalize`. -/
def georgianB (c : Char) : Bool := 0x10D0 ≤ c.toNat && c.toNat ≤ 0x10F0

/-- Model of JavaScript `toLowerCase` on one character, for the alphabets
this program touches: ASCII `A`–`Z` maps down by 32, Georgian Mtavruli
(U+1C90–U+1CBA) maps down to Mkhedruli; every other character is kept. -/
def jsToLower (c : Char) : Char :=
  if latinUpperB c then Char.ofNat (c.toNat + 32)
  else if 0x1C90 ≤ c.toNat && c.toNat ≤ 0x1CBA then Char.ofNat (c.toNat - 0xBC0)
  else c

/-- Whitespace recognised by JavaScript `trim` (space, tab, line
terminators, NBSP, BOM and the Unicode line separators). -/
def jsWhite (c : Char) : Bool :=
  c.toNat == 32 || c.toNat == 9 || c.toNat == 10 || c.toNat == 13 ||
    c.toNat == 11 || c.toNat == 12 || c.toNat == 0xA0 || c.toNat == 0xFEFF ||
    c.toNat == 0x2028 || c.toNat == 0x2029

/-- Model of JavaScript `trim`: drop whitespace from both ends. -/
def jsTrimList (l : List Char) : List Char :=
  ((l.dropWhile jsWhite).reverse.dropWhile jsWhite).reverse

/-- Character class kept by `replace(/[^a-z0-9ა-ჰ]/g, "")` in `normalize`. -/
def allowedChar (c : Char) : Bool := latinLowerB c || (digitB c || georgianB c)

/-- Model of `normalize` from `server.js`:
`str?.toLowerCase().trim().replace(/[^a-z0-9ა-ჰ]/g, "") || ""`.
The result is kept as a character list.  The trailing `|| ""` only replaces
an empty string by itself and is dropped. -/
def normalizeStr (s : String) : List Char :=
  (jsTrimList (s.toList.map jsToLower)).filter allowedChar

/-- First accepted spelling in `isGeorgia`. -/
def geoSpelling1 : List Char := "საქართველო".toList

/-- Second accepted spelling in `isGeorgia`. -/
def geoSpelling2 : List Char := "georgia".toList

/-- Third accepted spelling in `isGeorgia`. -/
def geoSpelling3 : List Char := "sakartvelo".toList

/-- Model of `isGeorgia` from `server.js`: the normalised country is
compared against the fixed list `["საქართველო", "georgia", "sakartvelo"]`. -/
def isGeorgia (country : String) : Bool :=
  (normalizeStr country == geoSpelling1) ||
    (normalizeStr country == geoSpelling2) ||
    (normalizeStr country == geoSpelling3)

/-- Modelled from the spec, for comparison with `normalizeStr`: the claim
describes the classification as lowercasing, trimming, then "stripping
every character outside Latin letters, digits, and the Georgian alphabet";
Latin letters here includes both cases. -/
def specAllowedChar (c : Char) : Bool :=
  latinLowerB c || latinUpperB c || (digitB c || georgianB c)

/-- Modelled from the spec: lowercase, trim, then strip every character
outside the supported alphabets and digits. -/
def specNormalize (s : String) : List Char :=
  (jsTrimList (s.toList.map jsToLower)).filter specAllowedChar

/-- JavaScript truthiness of an optional string field: `undefined` and the
empty string are falsy, every other string is truthy. -/
def truthy (s : Option String) : Bool :=
  match s with
  | none => false
  | some str => !(str == "")

/-- Numeric value of a list of ASCII digit characters, as computed by
`parseInt(·, 10)` on a digits-only string. -/
def digitsToNat (ds : List Char) : ℕ :=
  ds.foldl (fun n c => n * 10 + (c.toNat - 48)) 0

/-- Model of `parseInt(houseNumber.replace(/\D/g, ""), 10)`: strip every
non-digit; an empty remainder gives `NaN` (modelled as `none`), otherwise
the digits parse as a natural number. -/
def parseHouseNumber (s : String) : Option ℕ :=
  let ds := s.toList.filter digitB
  if ds.isEmpty then none else some (digitsToNat ds)

/-- Case-insensitive literal prefix match, modelling the anchored regex
`new RegExp("^" + escapeRegex(q), "i")`; `escapeRegex` makes the query a
literal string, so the regex is a plain prefix test. -/
def startsWithCI (q name : String) : Bool :=
  (q.toList.map jsToLower).isPrefixOf (name.toList.map jsToLower)

/-- Case-insensitive literal substring match, modelling the unanchored
regex `new RegExp(escapeRegex(q), "i")` of the street-suggestion query. -/
def containsCI (q name : String) : Bool :=
  ((name.toList.map jsToLower).tails).any
    (fun t => (q.toList.map jsToLower).isPrefixOf t)

/-! ## Geometry (from `haversine` and `interpolateHouseNumber`) -/

/-- A geometry point as stored in `road.path.coordinates`: a
`[longitude, latitude]` pair, so `.1` is the longitude (index 0) and `.2`
the latitude (index 1). -/
abbrev Point := ℝ × ℝ

/-- Degrees to radians, the `toRad` helper inside `haversine`. -/
noncomputable def toRad (x : ℝ) : ℝ := x * Real.pi / 180

/-- Model of `Math.atan2 y x`.  `haversine` only calls it on the
non-negative square roots `√a` and `√(1−a)`, where this definition agrees
with JavaScript; the remaining quadrants are irrelevant to the program. -/
noncomputable def atan2 (y x : ℝ) : ℝ :=
  if 0 < x then Real.arctan (y / x)
  else if 0 < y then Real.pi / 2
  else 0

/-- Model of the `haversine` function of `server.js` (spherical Earth,
radius 6371000 m).  `Real.sqrt` of a negative number is `0` where JavaScript
gives `NaN`; that case needs `a > 1`, which no claim exercises. -/
noncomputable def haversine (lat1 lon1 lat2 lon2 : ℝ) : ℝ :=
  let dLat := toRad (lat2 - lat1)
  let dLon := toRad (lon2 - lon1)
  let a := Real.sin (dLat / 2) ^ 2 +
    Real.cos (toRad lat1) * Real.cos (toRad lat2) * Real.sin (dLon / 2) ^ 2
  6371000 * 2 * atan2 (Real.sqrt a) (Real.sqrt (1 - a))

/-- Distance between two geometry points, as called in the segment loop:
`haversine(p1[1], p1[0], p2[1], p2[0])`. -/
noncomputable def segDist (p1 p2 : Point) : ℝ :=
  haversine p1.2 p1.1 p2.2 p2.1

/-- A straight segment of the flattened geometry, as pushed by the loop in
`interpolateHouseNumber` (the source also stores the cumulative `start`
offset, which the walk below never reads). -/
structure Seg where
  p1 : Point
  p2 : Point
  dist : ℝ

/-- Segments of one polyline: consecutive point pairs, the inner loop
`for (let i = 0; i < line.length - 1; i++)`.  An empty or single-point
polyline contributes no segment. -/
noncomputable def lineSegs (line : List Point) : List Seg :=
  (line.zip line.tail).map (fun pq => ⟨pq.1, pq.2, segDist pq.1 pq.2⟩)

/-- All segments of a geometry in collection order, the outer loop
`for (const line of path)`. -/
noncomputable def pathSegs (path : List (List Point)) : List Seg :=
  (path.map lineSegs).flatten

/-- Total length accumulated by `interpolateHouseNumber`. -/
noncomputable def totalLen (path : List (List Point)) : ℝ :=
  ((pathSegs path).map Seg.dist).sum

/-- The target distance `(houseNumber / 1000) * totalLength`. -/
noncomputable def targetDist (path : List (List Point)) (houseNumber : ℕ) : ℝ :=
  (houseNumber : ℝ) / 1000 * totalLen path

/-- The segment walk of `interpolateHouseNumber`: the first segment whose
cumulative end reaches the target is returned together with the ratio
`(targetDistance - accumulated) / seg.dist`.  When the selected segment has
zero length the JavaScript ratio is `NaN` (0/0) while this model yields `0`;
the theorems below only rely on this value where the segment length is
positive, except where a zero target is analysed explicitly. -/
noncomputable def selectSeg (target : ℝ) : ℝ → List Seg → Option (Seg × ℝ)
  | _, [] => none
  | acc, s :: rest =>
    if target ≤ acc + s.dist then some (s, (target - acc) / s.dist)
    else selectSeg target (acc + s.dist) rest

/-- Possible outcomes of `interpolateHouseNumber`: the JavaScript function
returns `null`, returns a `{lat, lng}` object, or throws a `TypeError`
(reading an element of an empty final polyline in the end-of-walk
fallback). -/
inductive InterpResult
  | null
  | point (lat lng : ℝ)
  | crash

/-- Model of `interpolateHouseNumber(path, houseNumber)` from `server.js`.
The house number is the non-negative integer produced by `parseInt` at the
call site. -/
noncomputable def interpolateHouseNumber
    (path : List (List Point)) (houseNumber : ℕ) : InterpResult :=
  let segs := pathSegs path
  let total := totalLen path
  if total = 0 then .null
  else
    match selectSeg (targetDist path houseNumber) 0 segs with
    | some (s, r) =>
      .point (s.p1.2 + r * (s.p2.2 - s.p1.2)) (s.p1.1 + r * (s.p2.1 - s.p1.1))
    | none =>
      match path.getLast? with
      | none => .crash
      | some last =>
        match last.getLast? with
        | none => .crash
        | some pt => .point pt.2 pt.1

/-- Centroid of a geometry as computed by the fallback block of the route:
flatten the polylines and average each axis; the result is the `(lat, lng)`
pair `{lat: sumLat / count, lng: sumLng / count}`.  On an empty geometry
JavaScript produces `NaN` (0/0) on both axes where this model yields `0`. -/
noncomputable def centroidCoords (path : List (List Point)) : ℝ × ℝ :=
  let pts := path.flatten
  (((pts.map Prod.snd).sum) / pts.length, ((pts.map Prod.fst).sum) / pts.length)

/-! ## Data model and HTTP responses (from the routes of `server.js`).
The MongoDB collections and the Google geocoder are external collaborators;
their answers enter the model as explicit arguments: a lookup either faults
(`Except.error`, the JavaScript promise rejection caught by the route's
`try`/`catch`) or returns its documents. -/

/-- A `places` document: a name and the `loc.coordinates` point
(`[lng, lat]`). -/
structure Place where
  name : String
  loc : Point

/-- A `roads` document: a name and the `path.coordinates` multi-polyline. -/
structure Road where
  name : String
  path : List (List Point)

/-- A successful Google geocoding result: `formatted_address` and the
`geometry.location` latitude/longitude. -/
structure GoogleHit where
  formatted : String
  lat : ℝ
  lng : ℝ

/-- Request body of `POST /api/validate-address`; absent fields are
`none`. -/
structure ReqBody where
  country : Option String
  city : Option String
  street : Option String
  houseNumber : Option String

/-- The JSON response of the route, together with the HTTP status code.
Fields the handler does not set are `none`; the `interpolated` field is
`none` both for JSON `null` and for an absent key, as the two are
indistinguishable to the claims. -/
structure Response where
  status : ℕ
  success : Bool
  message : String
  source : Option String := none
  coords : Option (ℝ × ℝ) := none
  path : Option (List (List Point)) := none
  interpolated : Option (ℝ × ℝ) := none
  formattedAddress : Option String := none

/-- Response for a missing field: status 400. -/
def badRequestResp : Response :=
  { status := 400, success := false, message := "ყველა ველი სავალდებულოა." }

/-- Response of the `catch` of the MongoDB branch: status 500. -/
def mongoErrorResp : Response :=
  { status := 500, success := false, message := "MongoDB შეცდომა" }

/-- Response when the city is not found. -/
def cityNotFoundResp (city : String) : Response :=
  { status := 200, success := false,
    message := "ქალაქი \"" ++ city ++ "\" ვერ მოიძებნა." }

/-- Response when no road with the street name lies within 30 km. -/
def streetNotNearResp (city street : String) : Response :=
  { status := 200, success := false,
    message := "ქუჩა \"" ++ street ++ "\" არ არის " ++ city ++
      "-ის მახლობლად (30 კმ-ში)." }

/-- The success response of the MongoDB branch.  `interpolated` mirrors
`houseNumber ? finalCoords : null` from the source: it carries the final
coordinate exactly when the request's house number was truthy. -/
noncomputable def successResp (city street : String) (houseNumber : Option String)
    (road : Road) (finalCoords : ℝ × ℝ) (hnGiven : Bool) : Response :=
  { status := 200, success := true,
    message := "მისამართი \"" ++ city ++ ", " ++ street ++
      (if hnGiven then " " ++ houseNumber.getD "" else "") ++ "\" ვალიდურია",
    source := some "MongoDB",
    coords := some finalCoords,
    path := some road.path,
    interpolated := if hnGiven then some finalCoords else none }

/-- Outcome of the interpolation block of the route: it was skipped or
returned `null` (`finalCoords` stays unset and the centroid is used), it
produced a point, or it threw (the exception is then caught by the route's
`catch`). -/
inductive InterpOutcome
  | skip
  | got (lat lng : ℝ)
  | crashed

/-- The interpolation block of the route:
`if (houseNumber && path && path.length > 0) { const num = parseInt(...); if (!isNaN(num)) { ... } }`.
`road.path.coordinates` is an array, hence always truthy; the guard reduces
to the house number being truthy and the path being non-empty. -/
noncomputable def interpBlock (houseNumber : Option String)
    (path : List (List Point)) : InterpOutcome :=
  if truthy houseNumber && !path.isEmpty then
    match parseHouseNumber (houseNumber.getD "") with
    | none => .skip
    | some num =>
      match interpolateHouseNumber path num with
      | .crash => .crashed
      | .null => .skip
      | .point lat lng => .got lat lng
  else .skip

/-- The MongoDB branch of `POST /api/validate-address` (current version,
with interpolation).  `findPlace` models the `places` lookup for the city
and `findRoad` the `$near`-filtered `roads` lookup for the street; a fault
in either, like a `TypeError` thrown by the interpolation fallback, lands
in the route's `catch`, which answers with `mongoErrorResp`. -/
noncomputable def localCore (findPlace : Except Unit (Option Place))
    (findRoad : Except Unit (Option Road))
    (city street : String) (houseNumber : Option String) : Response :=
  match findPlace with
  | .error _ => mongoErrorResp
  | .ok none => cityNotFoundResp city
  | .ok (some _place) =>
    match findRoad with
    | .error _ => mongoErrorResp
    | .ok none => streetNotNearResp city street
    | .ok (some road) =>
      match interpBlock houseNumber road.path with
      | .crashed => mongoErrorResp
      | .got lat lng =>
        successResp city street houseNumber road (lat, lng) (truthy houseNumber)
      | .skip =>
        successResp city street houseNumber road (centroidCoords road.path)
          (truthy houseNumber)

/-- The Google branch of the route: a rejected fetch is caught (status
500); a response whose status is not `"OK"` or with no results maps to a
failure; otherwise the first result's formatted address and location are
returned. -/
noncomputable def googleBranch (g : Except Unit (Option GoogleHit)) : Response :=
  match g with
  | .error _ => { status := 500, success := false, message := "Google API შეცდომა" }
  | .ok none =>
    { status := 200, success := false, message := "მისამართი ვერ მოიძებნა (Google)" }
  | .ok (some hit) =>
    { status := 200, success := true, message := "მისამართი ვალიდურია (Google)",
      formattedAddress := some hit.formatted,
      source := some "Google",
      coords := some (hit.lat, hit.lng) }

/-- Model of the whole `POST /api/validate-address` handler. -/
noncomputable def validateAddress (findPlace : Except Unit (Option Place))
    (findRoad : Except Unit (Option Road))
    (g : Except Unit (Option GoogleHit)) (body : ReqBody) : Response :=
  if truthy body.country && truthy body.city && truthy body.street then
    if isGeorgia (body.country.getD "") then
      localCore findPlace findRoad (body.city.getD "") (body.street.getD "")
        body.houseNumber
    else googleBranch g
  else badRequestResp

/-- The two strategies of the resolver. -/
inductive RouteClass
  | localDataset
  | remoteProvider
deriving DecidableEq

/-- Country classification of the resolver: the branch
`if (isGeorgia(country)) { ... } else { ... }`. -/
def classifyCountry (country : String) : RouteClass :=
  if isGeorgia country then .localDataset else .remoteProvider

/-- Model of `GET /api/cities`: status code and the returned name list.
The `places` collection query (anchored case-insensitive regex with
`limit(10)`) is modelled over the collection contents `ps`. -/
def citiesHandler (places : Except Unit (List Place))
    (q country : Option String) : ℕ × List String :=
  if !truthy q || (q.getD "").length < 2 then (200, [])
  else if !isGeorgia (country.getD "") then (200, [])
  else
    match places with
    | .error _ => (500, [])
    | .ok ps =>
      (200, ((ps.filter (fun p => startsWithCI (q.getD "") p.name)).take 10).map
        Place.name)

/-- Model of `GET /api/streets`: the exact-place lookup may fault or miss;
the road query combines the case-insensitive substring match on the name
with the `$near` proximity filter, modelled by the predicate `near`
(MongoDB geospatial semantics are external to this core). -/
def streetsHandler (findPlace : Except Unit (Option Place))
    (roads : Except Unit (List Road)) (near : Road → Bool)
    (city q country : Option String) : ℕ × List String :=
  if !truthy city || !truthy q || (q.getD "").length < 2 then (200, [])
  else if !isGeorgia (country.getD "") then (200, [])
  else
    match findPlace with
    | .error _ => (500, [])
    | .ok none => (200, [])
    | .ok (some _place) =>
      match roads with
      | .error _ => (500, [])
      | .ok rs =>
        (200, ((rs.filter (fun r => containsCI (q.getD "") r.name && near r)).take
          10).map Road.name)

/-! ## Helper lemmas about the geometry functions -/

/-- Arctangent of a non-negative number is non-negative. -/
lemma arctan_nonneg_of_nonneg {x : ℝ} (h : 0 ≤ x) : 0 ≤ Real.arctan x := by
  rcases h.lt_or_eq with h | h
  · have := Real.arctan_strictMono h
    rw [Real.arctan_zero] at this
    exact this.le
  · simp [← h, Real.arctan_zero]

/-- Arctangent of a positive number is positive. -/
lemma arctan_pos_of_pos {x : ℝ} (h : 0 < x) : 0 < Real.arctan x := by
  have := Real.arctan_strictMono h
  rwa [Real.arctan_zero] at this

/-- The model `atan2` is non-negative on a non-negative first argument. -/
lemma atan2_nonneg {y x : ℝ} (hy : 0 ≤ y) : 0 ≤ atan2 y x := by
  unfold atan2
  by_cases hx : 0 < x
  · rw [if_pos hx]
    exact arctan_nonneg_of_nonneg (div_nonneg hy hx.le)
  · rw [if_neg hx]
    by_cases hy' : 0 < y
    · rw [if_pos hy']
      positivity
    · rw [if_neg hy']

/-- The model `atan2` is positive on a positive first argument and a
non-negative second argument. -/
lemma atan2_pos {y x : ℝ} (hy : 0 < y) : 0 < atan2 y x := by
  unfold atan2
  by_cases hx : 0 < x
  · rw [if_pos hx]
    exact arctan_pos_of_pos (div_pos hy hx)
  · rw [if_neg hx, if_pos hy]
    positivity

/-- Haversine distances are never negative. -/
lemma haversine_nonneg (lat1 lon1 lat2 lon2 : ℝ) :
    0 ≤ haversine lat1 lon1 lat2 lon2 := by
  unfold haversine
  have h := atan2_nonneg (x := Real.sqrt (1 - (Real.sin (toRad (lat2 - lat1) / 2) ^ 2 +
    Real.cos (toRad lat1) * Real.cos (toRad lat2) * Real.sin (toRad (lon2 - lon1) / 2) ^ 2)))
    (Real.sqrt_nonneg (Real.sin (toRad (lat2 - lat1) / 2) ^ 2 +
      Real.cos (toRad lat1) * Real.cos (toRad lat2) * Real.sin (toRad (lon2 - lon1) / 2) ^ 2))
  positivity

/-- The haversine distance is positive whenever the intermediate quantity
`a` is positive. -/
lemma haversine_pos {lat1 lon1 lat2 lon2 : ℝ}
    (h : 0 < Real.sin (toRad (lat2 - lat1) / 2) ^ 2 +
      Real.cos (toRad lat1) * Real.cos (toRad lat2) *
        Real.sin (toRad (lon2 - lon1) / 2) ^ 2) :
    0 < haversine lat1 lon1 lat2 lon2 := by
  unfold haversine
  have := atan2_pos (x := Real.sqrt (1 - (Real.sin (toRad (lat2 - lat1) / 2) ^ 2 +
    Real.cos (toRad lat1) * Real.cos (toRad lat2) * Real.sin (toRad (lon2 - lon1) / 2) ^ 2)))
    (Real.sqrt_pos.mpr h)
  positivity

/-- Haversine distance from the equator point `(0, 0)` to `(0, 1)` (one
degree of latitude) is positive. -/
lemma hav01_pos : 0 < haversine 0 0 1 0 := by
  apply haversine_pos
  have h0 : Real.sin (toRad (0 - 0) / 2) = 0 := by
    simp [toRad]
  have h1 : 0 < Real.sin (toRad (1 - 0) / 2) := by
    apply Real.sin_pos_of_pos_of_lt_pi
    · simp only [toRad]
      positivity
    · simp only [toRad]
      nlinarith [Real.pi_pos]
  rw [h0]
  have := pow_pos h1 2
  nlinarith

/-- Haversine distance between the two Scenario A road endpoints is
positive. -/
lemma hav_scenA_pos : 0 < haversine 41.70 44.80 41.72 44.83 := by
  apply haversine_pos
  have hpi := Real.pi_pos
  have hcos1 : 0 < Real.cos (toRad 41.70) := by
    apply Real.cos_pos_of_mem_Ioo
    constructor
    · simp only [toRad]
      nlinarith
    · simp only [toRad]
      nlinarith
  have hcos2 : 0 < Real.cos (toRad 41.72) := by
    apply Real.cos_pos_of_mem_Ioo
    constructor
    · simp only [toRad]
      nlinarith
    · simp only [toRad]
      nlinarith
  have h1 : 0 < Real.sin (toRad (41.72 - 41.70) / 2) := by
    apply Real.sin_pos_of_pos_of_lt_pi
    · norm_num [toRad]
      positivity
    · norm_num [toRad]
      nlinarith
  have hsq : 0 ≤ Real.sin (toRad (44.83 - 44.80) / 2) ^ 2 := sq_nonneg _
  have hprod : 0 ≤ Real.cos (toRad 41.70) * Real.cos (toRad 41.72) *
      Real.sin (toRad (44.83 - 44.80) / 2) ^ 2 :=
    mul_nonneg (mul_nonneg hcos1.le hcos2.le) hsq
  nlinarith [pow_pos h1 2]

/-- Segment distances are never negative. -/
lemma segDist_nonneg (p q : Point) : 0 ≤ segDist p q :=
  haversine_nonneg _ _ _ _

/-- The concrete segment from `(0, 0)` to `(0, 1)` has positive length. -/
lemma segDist01_pos : 0 < segDist ((0 : ℝ), (0 : ℝ)) ((0 : ℝ), (1 : ℝ)) := by
  simpa [segDist] using hav01_pos

/-- Every segment produced from a geometry has non-negative length. -/
lemma pathSegs_dist_nonneg (path : List (List Point)) :
    ∀ s ∈ pathSegs path, 0 ≤ s.dist := by
  intro s hs
  simp only [pathSegs, List.mem_flatten, List.mem_map] at hs
  obtain ⟨_, ⟨line, _, rfl⟩, hs⟩ := hs
  simp only [lineSegs, List.mem_map] at hs
  obtain ⟨pq, _, rfl⟩ := hs
  exact segDist_nonneg _ _

/-- The total length of a geometry is never negative. -/
lemma totalLen_nonneg (path : List (List Point)) : 0 ≤ totalLen path := by
  apply List.sum_nonneg
  intro x hx
  simp only [List.mem_map] at hx
  obtain ⟨s, hs, rfl⟩ := hx
  exact pathSegs_dist_nonneg path s hs

/-! ## Lemmas about the segment walk -/

/-- When the walk starts strictly below the target and every segment length
is non-negative, a selected segment has positive length and the computed
ratio lies in the half-open interval `(0, 1]`. -/
lemma selectSeg_some_props :
    ∀ (segs : List Seg) (acc target : ℝ) (s : Seg) (r : ℝ),
      (∀ x ∈ segs, 0 ≤ x.dist) → acc < target →
      selectSeg target acc segs = some (s, r) →
      0 < s.dist ∧ 0 < r ∧ r ≤ 1 := by
  intro segs
  induction segs with
  | nil => intro acc target s r _ _ h; simp [selectSeg] at h
  | cons head rest ih =>
    intro acc target s r hnn hacc h
    simp only [selectSeg] at h
    by_cases hc : target ≤ acc + head.dist
    · rw [if_pos hc] at h
      simp only [Option.some.injEq, Prod.mk.injEq] at h
      obtain ⟨rfl, rfl⟩ := h
      have hd : 0 < head.dist := by linarith
      refine ⟨hd, div_pos (by linarith) hd, ?_⟩
      rw [div_le_one hd]
      linarith
    · rw [if_neg hc] at h
      exact ih (acc + head.dist) target s r
        (fun x hx => hnn x (List.mem_cons_of_mem _ hx)) (by linarith [not_le.mp hc]) h

/-- When the target equals the accumulated start plus the whole remaining
length and the final segment has positive length, the walk selects exactly
that final segment with ratio `1`. -/
lemma selectSeg_last_eq :
    ∀ (segs : List Seg) (s : Seg) (acc target : ℝ),
      (∀ x ∈ segs, 0 ≤ x.dist) → segs.getLast? = some s → 0 < s.dist →
      target = acc + (segs.map Seg.dist).sum →
      selectSeg target acc segs = some (s, 1) := by
  intro segs
  induction segs with
  | nil => intro s acc target _ h; simp at h
  | cons head rest ih =>
    intro s acc target hnn hlast hd htarget
    cases rest with
    | nil =>
      obtain rfl : head = s := by simpa using hlast
      simp only [List.map_cons, List.map_nil, List.sum_cons, List.sum_nil,
        add_zero] at htarget
      simp only [selectSeg, if_pos (le_of_eq htarget)]
      rw [htarget]
      congr 1
      rw [add_sub_cancel_left, div_self hd.ne']
    | cons b t =>
      have hlast' : (b :: t).getLast? = some s := by
        rwa [List.getLast?_cons_cons] at hlast
      have hmem : s ∈ b :: t := List.mem_of_getLast?_eq_some hlast'
      have hsum : s.dist ≤ ((b :: t).map Seg.dist).sum := by
        apply List.single_le_sum
        · intro x hx
          simp only [List.mem_map] at hx
          obtain ⟨y, hy, rfl⟩ := hx
          exact hnn y (List.mem_cons_of_mem _ hy)
        · exact List.mem_map_of_mem Seg.dist hmem
      rw [List.map_cons, List.sum_cons] at htarget
      have hcond : ¬ target ≤ acc + head.dist := by
        push_neg
        linarith
      simp only [selectSeg, if_neg hcond]
      exact ih s (acc + head.dist) target
        (fun x hx => hnn x (List.mem_cons_of_mem _ hx)) hlast' hd (by linarith)

/-- When the target strictly exceeds the accumulated start plus the whole
remaining length, the walk exhausts without selecting a segment. -/
lemma selectSeg_none_of_gt :
    ∀ (segs : List Seg) (acc target : ℝ),
      (∀ x ∈ segs, 0 ≤ x.dist) →
      acc + (segs.map Seg.dist).sum < target →
      selectSeg target acc segs = none := by
  intro segs
  induction segs with
  | nil => intro acc target _ _; simp [selectSeg]
  | cons head rest ih =>
    intro acc target hnn hlt
    simp only [List.map_cons, List.sum_cons] at hlt
    have hrest : 0 ≤ (rest.map Seg.dist).sum := by
      apply List.sum_nonneg
      intro x hx
      simp only [List.mem_map] at hx
      obtain ⟨y, hy, rfl⟩ := hx
      exact hnn y (List.mem_cons_of_mem _ hy)
    have hcond : ¬ target ≤ acc + head.dist := by
      push_neg
      linarith
    simp only [selectSeg, if_neg hcond]
    exact ih (acc + head.dist) target
      (fun x hx => hnn x (List.mem_cons_of_mem _ hx)) (by linarith)

/-! ## List plumbing for the end of the walk -/

/-- Prepending to a non-empty list does not change its last element. -/
lemma getLast?_cons_of_ne_nil {α : Type} (a : α) {l : List α} (h : l ≠ []) :
    (a :: l).getLast? = l.getLast? := by
  cases l with
  | nil => exact absurd rfl h
  | cons b t => exact List.getLast?_cons_cons

/-- The last element of a flattened list of lists is the last element of
the last block, provided that block is non-empty. -/
lemma flatten_getLast? {α : Type} {LL : List (List α)} {A : List α}
    (hA : LL.getLast? = some A) (hne : A ≠ []) :
    LL.flatten.getLast? = A.getLast? := by
  obtain ⟨ys, rfl⟩ := List.getLast?_eq_some_iff.mp hA
  rw [List.flatten_append]
  have hAlast : ∃ a, A.getLast? = some a := by
    rw [← Option.isSome_iff_exists, List.getLast?_isSome]
    exact hne
  obtain ⟨a, ha⟩ := hAlast
  have hsingle : ([A] : List (List α)).flatten = A := by simp
  rw [hsingle, List.getLast?_append, ha]
  rfl

/-- A list with at least two elements, zipped with its own tail, ends with
a pair whose second component is the last element of the list. -/
lemma zip_tail_getLast :
    ∀ (l : List Point), 2 ≤ l.length →
      ∃ pq : Point × Point, (l.zip l.tail).getLast? = some pq ∧
        l.getLast? = some pq.2 := by
  intro l
  induction l with
  | nil => intro h; simp at h
  | cons a rest ih =>
    intro h
    cases rest with
    | nil => simp at h
    | cons b t =>
      cases t with
      | nil => exact ⟨(a, b), by simp, by simp⟩
      | cons c t' =>
        obtain ⟨pq, hz, hl⟩ := ih (by simp only [List.length_cons]; omega)
        have hz' : ((b :: c :: t').zip (c :: t')).getLast? = some pq := by
          simpa using hz
        have hz2 : ((b, c) :: ((c :: t').zip t')).getLast? = some pq := by
          rw [← List.zip_cons_cons]
          exact hz'
        refine ⟨pq, ?_, ?_⟩
        · show ((a :: b :: c :: t').zip (b :: c :: t')).getLast? = some pq
          rw [List.zip_cons_cons, List.zip_cons_cons, List.getLast?_cons_cons]
          exact hz2
        · rw [List.getLast?_cons_cons]
          exact hl

/-! ## Lemmas about normalisation -/

/-- Converting a valid code point to a character and back is the
identity. -/
lemma toNat_ofNat_valid {n : ℕ} (h : n < 0xd800) : (Char.ofNat n).toNat = n := by
  rw [Char.ofNat, dif_pos (Or.inl h)]
  rfl

/-- No character produced by `jsToLower` is an upper-case Latin letter. -/
lemma jsToLower_not_upper (c : Char) : latinUpperB (jsToLower c) = false := by
  unfold jsToLower
  by_cases h1 : latinUpperB c
  · rw [if_pos h1]
    unfold latinUpperB at h1 ⊢
    simp only [Bool.and_eq_true, decide_eq_true_eq] at h1
    rw [toNat_ofNat_valid (by omega)]
    have : ¬ c.toNat + 32 ≤ 90 := by omega
    simp [this]
  · rw [if_neg h1]
    by_cases h2 : (0x1C90 ≤ c.toNat && c.toNat ≤ 0x1CBA) = true
    · rw [if_pos h2]
      simp only [Bool.and_eq_true, decide_eq_true_eq] at h2
      unfold latinUpperB
      rw [toNat_ofNat_valid (by omega)]
      have : ¬ c.toNat - 0xBC0 ≤ 90 := by omega
      simp [this]
    · rw [if_neg h2]
      simpa using h1

/-- Trimming only removes elements. -/
lemma mem_of_mem_jsTrimList {c : Char} {l : List Char} (h : c ∈ jsTrimList l) :
    c ∈ l := by
  unfold jsTrimList at h
  rw [List.mem_reverse] at h
  have h2 : c ∈ (l.dropWhile jsWhite).reverse :=
    (List.dropWhile_sublist jsWhite).subset h
  rw [List.mem_reverse] at h2
  exact (List.dropWhile_sublist jsWhite).subset h2

/-- The spec-side normalisation agrees with the source `normalize`: after
lowercasing, no upper-case Latin letter remains, so the two character
classes filter identically. -/
lemma specNormalize_eq_normalizeStr (s : String) :
    specNormalize s = normalizeStr s := by
  unfold specNormalize normalizeStr
  apply List.filter_congr
  intro c hc
  have hcl : c ∈ s.toList.map jsToLower := mem_of_mem_jsTrimList hc
  simp only [List.mem_map] at hcl
  obtain ⟨b, _, rfl⟩ := hcl
  unfold specAllowedChar allowedChar
  rw [jsToLower_not_upper b]
  cases latinLowerB (jsToLower b) <;> simp

/-! ## Evaluation lemmas for small concrete geometries -/

/-- The segments of a single two-point polyline. -/
lemma pathSegs_single_pair (p q : Point) :
    pathSegs [[p, q]] = [⟨p, q, segDist p q⟩] := by
  simp [pathSegs, lineSegs]

/-- The total length of a single two-point polyline. -/
lemma totalLen_single_pair (p q : Point) : totalLen [[p, q]] = segDist p q := by
  rw [totalLen, pathSegs_single_pair]
  simp

/-- Interpolation over a single two-point polyline with a house number of
at most 1000 selects the unique segment with ratio `houseNumber / 1000`. -/
lemma interpolate_single_pair (p q : Point) (hn : ℕ) (hd : 0 < segDist p q)
    (hle : hn ≤ 1000) :
    interpolateHouseNumber [[p, q]] hn =
      .point (p.2 + (hn : ℝ) / 1000 * (q.2 - p.2))
        (p.1 + (hn : ℝ) / 1000 * (q.1 - p.1)) := by
  have hne : segDist p q ≠ 0 := hd.ne'
  have hsegs := pathSegs_single_pair p q
  have htot := totalLen_single_pair p q
  have hr : (hn : ℝ) / 1000 ≤ 1 := by
    rw [div_le_one (by norm_num)]
    exact_mod_cast hle
  have htarget : targetDist [[p, q]] hn = (hn : ℝ) / 1000 * segDist p q := by
    rw [targetDist, htot]
  have hmul : (hn : ℝ) / 1000 * segDist p q ≤ 1 * segDist p q :=
    mul_le_mul_of_nonneg_right hr hd.le
  have hsel : selectSeg (targetDist [[p, q]] hn) 0 (pathSegs [[p, q]]) =
      some (⟨p, q, segDist p q⟩, (hn : ℝ) / 1000) := by
    rw [hsegs, htarget]
    simp only [selectSeg]
    rw [if_pos (by rw [zero_add]; linarith)]
    have hratio : ((hn : ℝ) / 1000 * segDist p q - 0) / segDist p q =
        (hn : ℝ) / 1000 := by
      rw [sub_zero, mul_div_assoc, div_self hne, mul_one]
    rw [hratio]
  simp only [interpolateHouseNumber]
  rw [if_neg (by rw [htot]; exact hne), hsel]

/-- The interpolation block is skipped when no house number was sent. -/
lemma interpBlock_none (path : List (List Point)) :
    interpBlock none path = .skip := by
  simp [interpBlock, truthy]

/-- A produced interpolation point implies the house number was truthy. -/
lemma interpBlock_got_truthy {hn : Option String} {path : List (List Point)}
    {lat lng : ℝ} (h : interpBlock hn path = .got lat lng) :
    truthy hn = true := by
  unfold interpBlock at h
  by_cases hc : (truthy hn && !path.isEmpty) = true
  · exact (Bool.and_eq_true _ _).mp hc |>.1
  · rw [if_neg hc] at h
    cases h

/-- On the local branch with both lookups succeeding, the response of the
validate-address handler is determined by the interpolation block. -/
lemma validateAddress_local_ok (pl : Place) (road : Road)
    (g : Except Unit (Option GoogleHit)) (country city street hn : Option String)
    (hc : truthy country = true) (hci : truthy city = true)
    (hst : truthy street = true) (hg : isGeorgia (country.getD "") = true) :
    validateAddress (.ok (some pl)) (.ok (some road)) g
        ⟨country, city, street, hn⟩ =
      match interpBlock hn road.path with
      | .crashed => mongoErrorResp
      | .got lat lng =>
        successResp (city.getD "") (street.getD "") hn road (lat, lng) (truthy hn)
      | .skip =>
        successResp (city.getD "") (street.getD "") hn road
          (centroidCoords road.path) (truthy hn) := by
  simp only [validateAddress, hc, hci, hst, Bool.and_self, if_true, hg, localCore]

/-! ## Claim theorems -/

/-- C5: for a road whose geometry is a single polyline with exactly two
points and positive segment length, `interpolate` with house number 500
returns the segment midpoint, ratio 0.5 applied linearly on each axis. -/
theorem interpolate500Midpoint (p q : Point) (h : 0 < segDist p q) :
    interpolateHouseNumber [[p, q]] 500 =
      .point ((p.2 + q.2) / 2) ((p.1 + q.1) / 2) := by
  rw [interpolate_single_pair p q 500 h (by norm_num)]
  rw [InterpResult.point.injEq]
  constructor
  · push_cast
    ring
  · push_cast
    ring

/-- Witness for C5 at the Scenario A road from `(44.80, 41.70)` to
`(44.83, 41.72)`. -/
theorem interpolate500Midpoint_witness :
    0 < segDist ((44.80 : ℝ), (41.70 : ℝ)) ((44.83 : ℝ), (41.72 : ℝ)) ∧
    interpolateHouseNumber
        [[((44.80 : ℝ), (41.70 : ℝ)), ((44.83 : ℝ), (41.72 : ℝ))]] 500 =
      .point (((41.70 : ℝ) + 41.72) / 2) (((44.80 : ℝ) + 44.83) / 2) := by
  have hpos : 0 < segDist ((44.80 : ℝ), (41.70 : ℝ)) ((44.83 : ℝ), (41.72 : ℝ)) := by
    simpa [segDist] using hav_scenA_pos
  exact ⟨hpos, interpolate500Midpoint _ _ hpos⟩

/-- C10: with a positive total length and a house number of at least one,
any segment the walk selects has strictly positive length, and the ratio
`(targetDistance − accumulated) / seg.dist` lies in `(0, 1]`; in
particular zero-length segments are never selected and the ratio is never
`0/0`. -/
theorem selectedSegmentPositiveRatio (path : List (List Point)) (hn : ℕ)
    (h1 : 1 ≤ hn) (hpos : 0 < totalLen path) (s : Seg) (r : ℝ)
    (hsel : selectSeg (targetDist path hn) 0 (pathSegs path) = some (s, r)) :
    0 < s.dist ∧ 0 < r ∧ r ≤ 1 := by
  apply selectSeg_some_props (pathSegs path) 0 (targetDist path hn) s r
    (pathSegs_dist_nonneg path) ?_ hsel
  rw [targetDist]
  have h1' : (1 : ℝ) ≤ (hn : ℝ) := by exact_mod_cast h1
  exact mul_pos (div_pos (by linarith) (by norm_num)) hpos

/-- Witness for C10 on the one-segment road from `(0,0)` to `(0,1)` with
house number 1: the walk selects that segment with ratio `1/1000`. -/
theorem selectedSegmentPositiveRatio_witness :
    (1 : ℕ) ≤ 1 ∧
    0 < totalLen [[((0 : ℝ), (0 : ℝ)), ((0 : ℝ), (1 : ℝ))]] ∧
    selectSeg (targetDist [[((0 : ℝ), (0 : ℝ)), ((0 : ℝ), (1 : ℝ))]] 1) 0
        (pathSegs [[((0 : ℝ), (0 : ℝ)), ((0 : ℝ), (1 : ℝ))]]) =
      some (⟨((0 : ℝ), (0 : ℝ)), ((0 : ℝ), (1 : ℝ)),
        segDist ((0 : ℝ), (0 : ℝ)) ((0 : ℝ), (1 : ℝ))⟩, (1 : ℝ) / 1000) ∧
    0 < segDist ((0 : ℝ), (0 : ℝ)) ((0 : ℝ), (1 : ℝ)) ∧
    0 < (1 : ℝ) / 1000 ∧ (1 : ℝ) / 1000 ≤ 1 := by
  have hd := segDist01_pos
  have htot : 0 < totalLen [[((0 : ℝ), (0 : ℝ)), ((0 : ℝ), (1 : ℝ))]] := by
    rw [totalLen_single_pair]
    exact hd
  have hsel : selectSeg (targetDist [[((0 : ℝ), (0 : ℝ)), ((0 : ℝ), (1 : ℝ))]] 1) 0
      (pathSegs [[((0 : ℝ), (0 : ℝ)), ((0 : ℝ), (1 : ℝ))]]) =
      some (⟨((0 : ℝ), (0 : ℝ)), ((0 : ℝ), (1 : ℝ)),
        segDist ((0 : ℝ), (0 : ℝ)) ((0 : ℝ), (1 : ℝ))⟩, (1 : ℝ) / 1000) := by
    rw [pathSegs_single_pair, targetDist, totalLen_single_pair]
    simp only [selectSeg]
    rw [if_pos (by push_cast; nlinarith)]
    have hratio : ((1 : ℕ) : ℝ) / 1000 * segDist ((0 : ℝ), (0 : ℝ)) ((0 : ℝ), (1 : ℝ)) / segDist ((0 : ℝ), (0 : ℝ)) ((0 : ℝ), (1 : ℝ)) = (1 : ℝ) / 1000 := by
      rw [mul_div_assoc, div_self hd.ne', mul_one]
      norm_num
    rw [sub_zero, hratio]
  have hprops := selectedSegmentPositiveRatio
    [[((0 : ℝ), (0 : ℝ)), ((0 : ℝ), (1 : ℝ))]] 1 (le_refl 1) htot _ _ hsel
  exact ⟨le_refl 1, htot, hsel, hprops.1, hprops.2.1, hprops.2.2⟩

/-- C3 is violated by the code: on a geometry whose final polyline is
empty, the end-of-walk fallback of `interpolateHouseNumber` reads the last
element of that empty polyline and throws, so interpolation does not
complete; the claim that it never crashes is wrong.  House number 1001
with positive total length exhausts the walk and reaches the fallback. -/
theorem emptyFinalPolylineCrash :
    interpolateHouseNumber
        [[((0 : ℝ), (0 : ℝ)), ((0 : ℝ), (1 : ℝ))], ([] : List Point)] 1001 =
      .crash := by
  have hd := segDist01_pos
  have hsegs : pathSegs [[((0 : ℝ), (0 : ℝ)), ((0 : ℝ), (1 : ℝ))], ([] : List Point)] =
      [⟨((0 : ℝ), (0 : ℝ)), ((0 : ℝ), (1 : ℝ)),
        segDist ((0 : ℝ), (0 : ℝ)) ((0 : ℝ), (1 : ℝ))⟩] := by
    simp [pathSegs, lineSegs]
  have htot : totalLen [[((0 : ℝ), (0 : ℝ)), ((0 : ℝ), (1 : ℝ))], ([] : List Point)] =
      segDist ((0 : ℝ), (0 : ℝ)) ((0 : ℝ), (1 : ℝ)) := by
    rw [totalLen, hsegs]
    simp
  have hgt : 0 + ((pathSegs [[((0 : ℝ), (0 : ℝ)), ((0 : ℝ), (1 : ℝ))], ([] : List Point)]).map
      Seg.dist).sum <
      targetDist [[((0 : ℝ), (0 : ℝ)), ((0 : ℝ), (1 : ℝ))], ([] : List Point)] 1001 := by
    rw [hsegs, targetDist, htot]
    push_cast
    simp only [List.map_cons, List.map_nil, List.sum_cons, List.sum_nil]
    nlinarith
  have hsel := selectSeg_none_of_gt _ 0 _
    (pathSegs_dist_nonneg [[((0 : ℝ), (0 : ℝ)), ((0 : ℝ), (1 : ℝ))], ([] : List Point)]) hgt
  simp only [interpolateHouseNumber]
  rw [if_neg (by rw [htot]; exact hd.ne'), hsel]
  rfl

/-- C4 counterexample: on the geometry whose final polyline is the single
point `(5, 5)` after a positive-length segment from `(0, 0)` to `(0, 1)`,
house number 1000 makes the walk select the last positive segment with
ratio 1, returning `(lat 1, lng 0)` — not the final point `(lat 5, lng 5)`
of the final polyline, although the total length is positive.  This
refutes the claim for houseNumber = 1000. -/
theorem hn1000NotFinalPointCex :
    interpolateHouseNumber
        [[((0 : ℝ), (0 : ℝ)), ((0 : ℝ), (1 : ℝ))], [((5 : ℝ), (5 : ℝ))]] 1000 =
      .point 1 0 ∧
    ([[((0 : ℝ), (0 : ℝ)), ((0 : ℝ), (1 : ℝ))], [((5 : ℝ), (5 : ℝ))]] :
      List (List Point)).getLast? = some [((5 : ℝ), (5 : ℝ))] ∧
    ([((5 : ℝ), (5 : ℝ))] : List Point).getLast? = some ((5 : ℝ), (5 : ℝ)) ∧
    0 < totalLen [[((0 : ℝ), (0 : ℝ)), ((0 : ℝ), (1 : ℝ))], [((5 : ℝ), (5 : ℝ))]] ∧
    InterpResult.point 1 0 ≠ InterpResult.point (5 : ℝ) (5 : ℝ) := by
  have hd := segDist01_pos
  have hsegs : pathSegs [[((0 : ℝ), (0 : ℝ)), ((0 : ℝ), (1 : ℝ))], [((5 : ℝ), (5 : ℝ))]] =
      [⟨((0 : ℝ), (0 : ℝ)), ((0 : ℝ), (1 : ℝ)),
        segDist ((0 : ℝ), (0 : ℝ)) ((0 : ℝ), (1 : ℝ))⟩] := by
    simp [pathSegs, lineSegs]
  have htot : totalLen [[((0 : ℝ), (0 : ℝ)), ((0 : ℝ), (1 : ℝ))], [((5 : ℝ), (5 : ℝ))]] =
      segDist ((0 : ℝ), (0 : ℝ)) ((0 : ℝ), (1 : ℝ)) := by
    rw [totalLen, hsegs]
    simp
  have htarget : targetDist [[((0 : ℝ), (0 : ℝ)), ((0 : ℝ), (1 : ℝ))], [((5 : ℝ), (5 : ℝ))]] 1000 =
      segDist ((0 : ℝ), (0 : ℝ)) ((0 : ℝ), (1 : ℝ)) := by
    rw [targetDist, htot]
    push_cast
    ring
  have hsel : selectSeg
      (targetDist [[((0 : ℝ), (0 : ℝ)), ((0 : ℝ), (1 : ℝ))], [((5 : ℝ), (5 : ℝ))]] 1000) 0
      (pathSegs [[((0 : ℝ), (0 : ℝ)), ((0 : ℝ), (1 : ℝ))], [((5 : ℝ), (5 : ℝ))]]) =
      some (⟨((0 : ℝ), (0 : ℝ)), ((0 : ℝ), (1 : ℝ)),
        segDist ((0 : ℝ), (0 : ℝ)) ((0 : ℝ), (1 : ℝ))⟩, 1) := by
    rw [hsegs, htarget]
    simp only [selectSeg]
    rw [if_pos (by linarith)]
    rw [sub_zero, div_self hd.ne']
  refine ⟨?_, by simp, by simp, by rw [htot]; exact hd, by simp⟩
  simp only [interpolateHouseNumber]
  rw [if_neg (by rw [htot]; exact hd.ne'), hsel]
  norm_num

/-- C4 amended: for every geometry whose final polyline has at least two
points and whose final segment has positive length, `interpolate` with any
house number of at least 1000 returns exactly the final point of the final
polyline (at exactly 1000 the walk selects the final segment with ratio 1;
above 1000 the walk exhausts and the fallback reads the same point). -/
theorem interpolateGe1000FinalPoint
    (path : List (List Point)) (lastLine : List Point) (pt : Point) (hn : ℕ)
    (hlast : path.getLast? = some lastLine)
    (h2 : 2 ≤ lastLine.length)
    (hpt : lastLine.getLast? = some pt)
    (hposlast : ∀ s, (pathSegs path).getLast? = some s → 0 < s.dist)
    (h1000 : 1000 ≤ hn) :
    interpolateHouseNumber path hn = .point pt.2 pt.1 := by
  obtain ⟨pq, hz, hl2⟩ := zip_tail_getLast lastLine h2
  have hpt2 : pt = pq.2 := by
    rw [hpt] at hl2
    exact Option.some_inj.mp hl2
  have hlineSegs : (lineSegs lastLine).getLast? =
      some ⟨pq.1, pq.2, segDist pq.1 pq.2⟩ := by
    rw [lineSegs, List.getLast?_map, hz]
    rfl
  have hlineNe : lineSegs lastLine ≠ [] := by
    intro hcontra
    rw [hcontra] at hlineSegs
    simp at hlineSegs
  have hmapLast : (path.map lineSegs).getLast? = some (lineSegs lastLine) := by
    rw [List.getLast?_map, hlast]
    rfl
  have hsegsLast : (pathSegs path).getLast? =
      some ⟨pq.1, pq.2, segDist pq.1 pq.2⟩ := by
    rw [pathSegs, flatten_getLast? hmapLast hlineNe, hlineSegs]
  have hd : 0 < segDist pq.1 pq.2 := hposlast _ hsegsLast
  have hnn := pathSegs_dist_nonneg path
  have hmem : (⟨pq.1, pq.2, segDist pq.1 pq.2⟩ : Seg) ∈ pathSegs path :=
    List.mem_of_getLast?_eq_some hsegsLast
  have hdsum : segDist pq.1 pq.2 ≤ ((pathSegs path).map Seg.dist).sum := by
    apply List.single_le_sum
    · intro x hx
      simp only [List.mem_map] at hx
      obtain ⟨y, hy, rfl⟩ := hx
      exact hnn y hy
    · exact List.mem_map_of_mem Seg.dist hmem
  have htot : 0 < totalLen path := by
    rw [totalLen]
    linarith
  rcases eq_or_lt_of_le h1000 with heq | hlt
  · have htarget : targetDist path hn =
        0 + ((pathSegs path).map Seg.dist).sum := by
      rw [targetDist, ← heq, totalLen]
      push_cast
      ring
    have hsel : selectSeg (targetDist path hn) 0 (pathSegs path) =
        some (⟨pq.1, pq.2, segDist pq.1 pq.2⟩, 1) :=
      selectSeg_last_eq _ _ 0 _ hnn hsegsLast hd htarget
    simp only [interpolateHouseNumber]
    rw [if_neg htot.ne', hsel]
    show InterpResult.point (pq.1.2 + 1 * (pq.2.2 - pq.1.2))
        (pq.1.1 + 1 * (pq.2.1 - pq.1.1)) = InterpResult.point pt.2 pt.1
    rw [InterpResult.point.injEq, hpt2]
    constructor
    · ring
    · ring
  · have hc : (1000 : ℝ) < (hn : ℝ) := by exact_mod_cast hlt
    have hone : (1 : ℝ) < (hn : ℝ) / 1000 := by
      rw [lt_div_iff₀ (by norm_num : (0 : ℝ) < 1000)]
      linarith
    have htarget : 0 + ((pathSegs path).map Seg.dist).sum < targetDist path hn := by
      rw [targetDist, totalLen] at *
      nlinarith
    have hsel : selectSeg (targetDist path hn) 0 (pathSegs path) = none :=
      selectSeg_none_of_gt _ 0 _ hnn htarget
    simp only [interpolateHouseNumber]
    rw [if_neg htot.ne', hsel, hlast]
    simp only [hpt]

/-- Witness for the amended C4 on the one-segment road from `(0,0)` to
`(0,1)` with house number 1000. -/
theorem interpolateGe1000FinalPoint_witness :
    ([[((0 : ℝ), (0 : ℝ)), ((0 : ℝ), (1 : ℝ))]] : List (List Point)).getLast? =
      some [((0 : ℝ), (0 : ℝ)), ((0 : ℝ), (1 : ℝ))] ∧
    2 ≤ ([((0 : ℝ), (0 : ℝ)), ((0 : ℝ), (1 : ℝ))] : List Point).length ∧
    ([((0 : ℝ), (0 : ℝ)), ((0 : ℝ), (1 : ℝ))] : List Point).getLast? =
      some ((0 : ℝ), (1 : ℝ)) ∧
    interpolateHouseNumber [[((0 : ℝ), (0 : ℝ)), ((0 : ℝ), (1 : ℝ))]] 1000 =
      .point 1 0 := by
  refine ⟨by simp, by simp, by simp, ?_⟩
  have hposlast : ∀ s,
      (pathSegs [[((0 : ℝ), (0 : ℝ)), ((0 : ℝ), (1 : ℝ))]]).getLast? = some s →
      0 < s.dist := by
    intro s hs
    rw [pathSegs_single_pair] at hs
    simp only [List.getLast?_singleton, Option.some_inj] at hs
    rw [← hs]
    exact segDist01_pos
  have := interpolateGe1000FinalPoint
    [[((0 : ℝ), (0 : ℝ)), ((0 : ℝ), (1 : ℝ))]]
    [((0 : ℝ), (0 : ℝ)), ((0 : ℝ), (1 : ℝ))] ((0 : ℝ), (1 : ℝ)) 1000
    (by simp) (by simp) (by simp) hposlast (le_refl 1000)
  simpa using this

/-- C1 is violated by the code: a house number string parsing to zero is
not rejected (`!isNaN(0)` holds), so interpolation runs with target
distance `0`, selects the first segment with ratio `0` and returns the
first point of the geometry — not the centroid, and not a not-found.  The
handler still answers with success; no error is surfaced. -/
theorem houseNumberZeroFirstPoint :
    (validateAddress (.ok (some ⟨"tbilisi", ((44 : ℝ), (41 : ℝ))⟩))
        (.ok (some ⟨"rustaveli", [[((0 : ℝ), (0 : ℝ)), ((0 : ℝ), (1 : ℝ))]]⟩))
        (.ok none)
        ⟨some "georgia", some "tbilisi", some "rustaveli", some "0"⟩).success = true ∧
    (validateAddress (.ok (some ⟨"tbilisi", ((44 : ℝ), (41 : ℝ))⟩))
        (.ok (some ⟨"rustaveli", [[((0 : ℝ), (0 : ℝ)), ((0 : ℝ), (1 : ℝ))]]⟩))
        (.ok none)
        ⟨some "georgia", some "tbilisi", some "rustaveli", some "0"⟩).coords =
      some ((0 : ℝ), (0 : ℝ)) ∧
    centroidCoords [[((0 : ℝ), (0 : ℝ)), ((0 : ℝ), (1 : ℝ))]] = ((1 : ℝ) / 2, (0 : ℝ)) ∧
    (validateAddress (.ok (some ⟨"tbilisi", ((44 : ℝ), (41 : ℝ))⟩))
        (.ok (some ⟨"rustaveli", [[((0 : ℝ), (0 : ℝ)), ((0 : ℝ), (1 : ℝ))]]⟩))
        (.ok none)
        ⟨some "georgia", some "tbilisi", some "rustaveli", some "0"⟩).coords ≠
      some (centroidCoords [[((0 : ℝ), (0 : ℝ)), ((0 : ℝ), (1 : ℝ))]]) := by
  have hinterp : interpolateHouseNumber [[((0 : ℝ), (0 : ℝ)), ((0 : ℝ), (1 : ℝ))]] 0 =
      .point 0 0 := by
    have h := interpolate_single_pair ((0 : ℝ), (0 : ℝ)) ((0 : ℝ), (1 : ℝ)) 0
      segDist01_pos (by norm_num)
    simpa using h
  have hblock : interpBlock (some "0") [[((0 : ℝ), (0 : ℝ)), ((0 : ℝ), (1 : ℝ))]] =
      .got 0 0 := by
    have hp : parseHouseNumber "0" = some 0 := by decide
    have ht : truthy (some "0") = true := by decide
    simp only [interpBlock, ht, Option.getD_some, hp, hinterp, List.isEmpty_cons,
      Bool.not_false, Bool.and_self, if_true]
  have hval := validateAddress_local_ok
    ⟨"tbilisi", ((44 : ℝ), (41 : ℝ))⟩
    ⟨"rustaveli", [[((0 : ℝ), (0 : ℝ)), ((0 : ℝ), (1 : ℝ))]]⟩
    (.ok none) (some "georgia") (some "tbilisi") (some "rustaveli") (some "0")
    (by decide) (by decide) (by decide) (by decide)
  rw [hblock] at hval
  have hcen : centroidCoords [[((0 : ℝ), (0 : ℝ)), ((0 : ℝ), (1 : ℝ))]] =
      ((1 : ℝ) / 2, (0 : ℝ)) := by
    norm_num [centroidCoords]
  refine ⟨?_, ?_, hcen, ?_⟩
  · rw [hval]
    rfl
  · rw [hval]
    rfl
  · rw [hval, hcen]
    simp only [successResp]
    intro hcontra
    rw [Option.some_inj, Prod.mk.injEq] at hcontra
    have := hcontra.1
    norm_num at this

/-- C2 is violated by the code: the current handler version dropped the
empty-geometry guard of the earlier version, so a matched road with zero
geometry points is answered with success (JavaScript computes `0/0 = NaN`
coordinates), not with the failure message the claim requires. -/
theorem emptyGeometrySuccessTrue :
    (validateAddress (.ok (some ⟨"tbilisi", ((44 : ℝ), (41 : ℝ))⟩))
        (.ok (some ⟨"rustaveli", ([] : List (List Point))⟩)) (.ok none)
        ⟨some "georgia", some "tbilisi", some "rustaveli", none⟩).success = true ∧
    (validateAddress (.ok (some ⟨"tbilisi", ((44 : ℝ), (41 : ℝ))⟩))
        (.ok (some ⟨"rustaveli", ([] : List (List Point))⟩)) (.ok none)
        ⟨some "georgia", some "tbilisi", some "rustaveli", none⟩).status = 200 ∧
    (validateAddress (.ok (some ⟨"tbilisi", ((44 : ℝ), (41 : ℝ))⟩))
        (.ok (some ⟨"rustaveli", ([] : List (List Point))⟩)) (.ok none)
        ⟨some "georgia", some "tbilisi", some "rustaveli", none⟩).message ≠
      "ქუჩის კოორდინატები ვერ მოიძებნა." := by
  have hval := validateAddress_local_ok
    ⟨"tbilisi", ((44 : ℝ), (41 : ℝ))⟩
    ⟨"rustaveli", ([] : List (List Point))⟩
    (.ok none) (some "georgia") (some "tbilisi") (some "rustaveli") none
    (by decide) (by decide) (by decide) (by decide)
  rw [interpBlock_none] at hval
  refine ⟨by rw [hval]; rfl, by rw [hval]; rfl, ?_⟩
  rw [hval]
  show ("მისამართი \"" ++ "tbilisi" ++ ", " ++ "rustaveli" ++
    (if truthy none = true then " " ++ (none : Option String).getD "" else "") ++
    "\" ვალიდურია") ≠ "ქუჩის კოორდინატები ვერ მოიძებნა."
  decide

/-- C6 counterexample: with the digit-free house number `"x"` the parse
yields `NaN`, interpolation is never attempted, yet the response's
`interpolated` field is populated (with the centroid), because the source
sets `interpolated: houseNumber ? finalCoords : null` on truthiness of the
input alone.  This refutes "populated exactly when interpolation
succeeded". -/
theorem interpolatedWithoutSuccessCex :
    parseHouseNumber "x" = none ∧
    (validateAddress (.ok (some ⟨"tbilisi", ((44 : ℝ), (41 : ℝ))⟩))
        (.ok (some ⟨"rustaveli", [[((0 : ℝ), (0 : ℝ)), ((0 : ℝ), (2 : ℝ))]]⟩))
        (.ok none)
        ⟨some "georgia", some "tbilisi", some "rustaveli", some "x"⟩).interpolated =
      some (centroidCoords [[((0 : ℝ), (0 : ℝ)), ((0 : ℝ), (2 : ℝ))]]) ∧
    (validateAddress (.ok (some ⟨"tbilisi", ((44 : ℝ), (41 : ℝ))⟩))
        (.ok (some ⟨"rustaveli", [[((0 : ℝ), (0 : ℝ)), ((0 : ℝ), (2 : ℝ))]]⟩))
        (.ok none)
        ⟨some "georgia", some "tbilisi", some "rustaveli", some "x"⟩).interpolated ≠
      none := by
  have hp : parseHouseNumber "x" = none := by decide
  have ht : truthy (some "x") = true := by decide
  have hblock : interpBlock (some "x") [[((0 : ℝ), (0 : ℝ)), ((0 : ℝ), (2 : ℝ))]] =
      .skip := by
    simp only [interpBlock, ht, Option.getD_some, hp, List.isEmpty_cons,
      Bool.not_false, Bool.and_self, if_true]
  have hval := validateAddress_local_ok
    ⟨"tbilisi", ((44 : ℝ), (41 : ℝ))⟩
    ⟨"rustaveli", [[((0 : ℝ), (0 : ℝ)), ((0 : ℝ), (2 : ℝ))]]⟩
    (.ok none) (some "georgia") (some "tbilisi") (some "rustaveli") (some "x")
    (by decide) (by decide) (by decide) (by decide)
  rw [hblock] at hval
  refine ⟨hp, ?_, ?_⟩
  · rw [hval]
    show (if truthy (some "x") then
        some (centroidCoords [[((0 : ℝ), (0 : ℝ)), ((0 : ℝ), (2 : ℝ))]]) else none) =
      some (centroidCoords [[((0 : ℝ), (0 : ℝ)), ((0 : ℝ), (2 : ℝ))]])
    rw [ht]
    rfl
  · rw [hval]
    show (if truthy (some "x") then
        some (centroidCoords [[((0 : ℝ), (0 : ℝ)), ((0 : ℝ), (2 : ℝ))]]) else none) ≠
      none
    rw [ht]
    simp

/-- C6 amended: in a successful local-dataset response the `interpolated`
field is populated exactly when a house number was given (truthy), in
which case it equals the returned coordinate (the interpolation result
when interpolation succeeded, else the centroid); when the house number is
omitted the field is absent and the returned coordinate is the geometry
centroid. -/
theorem interpolatedIffGiven (pl : Place) (road : Road)
    (g : Except Unit (Option GoogleHit)) (country city street hn : Option String)
    (hc : truthy country = true) (hci : truthy city = true)
    (hst : truthy street = true) (hg : isGeorgia (country.getD "") = true)
    (hok : (validateAddress (.ok (some pl)) (.ok (some road)) g
        ⟨country, city, street, hn⟩).success = true) :
    ((validateAddress (.ok (some pl)) (.ok (some road)) g
        ⟨country, city, street, hn⟩).interpolated ≠ none ↔ truthy hn = true) ∧
    (truthy hn = true →
      (validateAddress (.ok (some pl)) (.ok (some road)) g
        ⟨country, city, street, hn⟩).interpolated =
      (validateAddress (.ok (some pl)) (.ok (some road)) g
        ⟨country, city, street, hn⟩).coords) ∧
    (truthy hn = false →
      (validateAddress (.ok (some pl)) (.ok (some road)) g
          ⟨country, city, street, hn⟩).interpolated = none ∧
      (validateAddress (.ok (some pl)) (.ok (some road)) g
          ⟨country, city, street, hn⟩).coords =
        some (centroidCoords road.path)) := by
  have hval := validateAddress_local_ok pl road g country city street hn hc hci hst hg
  rw [hval] at hok ⊢
  cases hI : interpBlock hn road.path with
  | crashed =>
    rw [hI] at hok
    simp [mongoErrorResp] at hok
  | got lat lng =>
    have htr : truthy hn = true := interpBlock_got_truthy hI
    simp [successResp, htr]
  | skip =>
    by_cases htr : truthy hn = true
    · simp [successResp, htr]
    · have htr' : truthy hn = false := by
        cases h : truthy hn
        · rfl
        · exact absurd h htr
      simp [successResp, htr']

/-- Witness for the amended C6: a request without a house number yields a
successful response whose coordinate is the centroid and whose
`interpolated` field is absent. -/
theorem interpolatedIffGiven_witness :
    truthy (some "georgia") = true ∧
    isGeorgia ((some "georgia").getD "") = true ∧
    (validateAddress (.ok (some ⟨"tbilisi", ((44 : ℝ), (41 : ℝ))⟩))
        (.ok (some ⟨"rustaveli", [[((0 : ℝ), (0 : ℝ)), ((0 : ℝ), (2 : ℝ))]]⟩))
        (.ok none)
        ⟨some "georgia", some "tbilisi", some "rustaveli", none⟩).success = true ∧
    (validateAddress (.ok (some ⟨"tbilisi", ((44 : ℝ), (41 : ℝ))⟩))
        (.ok (some ⟨"rustaveli", [[((0 : ℝ), (0 : ℝ)), ((0 : ℝ), (2 : ℝ))]]⟩))
        (.ok none)
        ⟨some "georgia", some "tbilisi", some "rustaveli", none⟩).interpolated =
      none ∧
    (validateAddress (.ok (some ⟨"tbilisi", ((44 : ℝ), (41 : ℝ))⟩))
        (.ok (some ⟨"rustaveli", [[((0 : ℝ), (0 : ℝ)), ((0 : ℝ), (2 : ℝ))]]⟩))
        (.ok none)
        ⟨some "georgia", some "tbilisi", some "rustaveli", none⟩).coords =
      some (centroidCoords [[((0 : ℝ), (0 : ℝ)), ((0 : ℝ), (2 : ℝ))]]) := by
  have hval := validateAddress_local_ok
    ⟨"tbilisi", ((44 : ℝ), (41 : ℝ))⟩
    ⟨"rustaveli", [[((0 : ℝ), (0 : ℝ)), ((0 : ℝ), (2 : ℝ))]]⟩
    (.ok none) (some "georgia") (some "tbilisi") (some "rustaveli") none
    (by decide) (by decide) (by decide) (by decide)
  rw [interpBlock_none] at hval
  have hok : (validateAddress (.ok (some ⟨"tbilisi", ((44 : ℝ), (41 : ℝ))⟩))
      (.ok (some ⟨"rustaveli", [[((0 : ℝ), (0 : ℝ)), ((0 : ℝ), (2 : ℝ))]]⟩))
      (.ok none)
      ⟨some "georgia", some "tbilisi", some "rustaveli", none⟩).success = true := by
    rw [hval]
    rfl
  have hmain := interpolatedIffGiven
    ⟨"tbilisi", ((44 : ℝ), (41 : ℝ))⟩
    ⟨"rustaveli", [[((0 : ℝ), (0 : ℝ)), ((0 : ℝ), (2 : ℝ))]]⟩
    (.ok none) (some "georgia") (some "tbilisi") (some "rustaveli") none
    (by decide) (by decide) (by decide) (by decide) hok
  have hend := hmain.2.2 (by decide)
  exact ⟨by decide, by decide, hok, hend.1, hend.2⟩

/-- C7: the resolver takes the local-dataset branch exactly when the
country, after lowercasing, trimming and stripping every character outside
Latin letters, digits and the Georgian alphabet, equals one of the three
fixed spellings; the classification is binary, and with all fields present
the handler follows the classified branch. -/
theorem countryClassificationBinary (c : String)
    (fp : Except Unit (Option Place)) (fr : Except Unit (Option Road))
    (g : Except Unit (Option GoogleHit)) (city street hn : Option String) :
    (classifyCountry c = .localDataset ↔
      specNormalize c ∈ [geoSpelling1, geoSpelling2, geoSpelling3]) ∧
    (classifyCountry c = .localDataset ∨ classifyCountry c = .remoteProvider) ∧
    (truthy (some c) = true → truthy city = true → truthy street = true →
      validateAddress fp fr g ⟨some c, city, street, hn⟩ =
        if classifyCountry c = .localDataset then
          localCore fp fr (city.getD "") (street.getD "") hn
        else googleBranch g) := by
  have hiff : isGeorgia c = true ↔
      normalizeStr c ∈ [geoSpelling1, geoSpelling2, geoSpelling3] := by
    simp only [isGeorgia, Bool.or_eq_true, beq_iff_eq, List.mem_cons,
      List.mem_singleton, List.not_mem_nil, or_false]
    tauto
  refine ⟨?_, ?_, ?_⟩
  · rw [specNormalize_eq_normalizeStr, ← hiff]
    unfold classifyCountry
    by_cases h : isGeorgia c
    · simp [h]
    · simp [h]
  · unfold classifyCountry
    by_cases h : isGeorgia c
    · simp [h]
    · simp [h]
  · intro h1 h2 h3
    simp only [validateAddress, h1, h2, h3, Bool.and_self, if_true,
      Option.getD_some]
    unfold classifyCountry
    by_cases h : isGeorgia c
    · simp [h]
    · simp [h]

/-- Witness for C7 at the transliterated spelling `"Sakartvelo"`. -/
theorem countryClassificationBinary_witness :
    truthy (some "Sakartvelo") = true ∧
    (classifyCountry "Sakartvelo" = .localDataset ↔
      specNormalize "Sakartvelo" ∈ [geoSpelling1, geoSpelling2, geoSpelling3]) ∧
    validateAddress (.error ()) (.error ()) (.ok none)
        ⟨some "Sakartvelo", some "tbilisi", some "rustaveli", none⟩ =
      if classifyCountry "Sakartvelo" = .localDataset then
        localCore (.error ()) (.error ()) "tbilisi" "rustaveli" none
      else googleBranch (.ok none) := by
  have h := countryClassificationBinary "Sakartvelo" (.error ()) (.error ())
    (.ok none) (some "tbilisi") (some "rustaveli") none
  exact ⟨by decide, h.1, h.2.2 (by decide) (by decide) (by decide)⟩

/-- C8: on the local branch, a fault of the `places` lookup or of the
`roads` lookup is caught by the route and answered with a non-success
MongoDB error message; on the remote branch, a fault of the Google call is
caught and answered with a non-success Google error message.  The handler
is a total function, so no exception from these collaborators escapes. -/
theorem faultsCaughtAtBoundary (fp : Except Unit (Option Place))
    (fr : Except Unit (Option Road)) (g : Except Unit (Option GoogleHit))
    (body : ReqBody)
    (hpresent : (truthy body.country && truthy body.city &&
      truthy body.street) = true) :
    (isGeorgia (body.country.getD "") = true → fp = .error () →
      (validateAddress fp fr g body).success = false ∧
      (validateAddress fp fr g body).message = "MongoDB შეცდომა") ∧
    (isGeorgia (body.country.getD "") = true → ∀ pl, fp = .ok (some pl) →
      fr = .error () →
      (validateAddress fp fr g body).success = false ∧
      (validateAddress fp fr g body).message = "MongoDB შეცდომა") ∧
    (isGeorgia (body.country.getD "") = false → g = .error () →
      (validateAddress fp fr g body).success = false ∧
      (validateAddress fp fr g body).message = "Google API შეცდომა") := by
  refine ⟨?_, ?_, ?_⟩
  · intro hg hferr
    subst hferr
    simp [validateAddress, hpresent, hg, localCore, mongoErrorResp]
  · intro hg pl hfp hferr
    subst hfp
    subst hferr
    simp [validateAddress, hpresent, hg, localCore, mongoErrorResp]
  · intro hg hgerr
    subst hgerr
    simp [validateAddress, hpresent, hg, googleBranch]

/-- Witness for C8: a faulting `places` lookup on a local-country request
is answered with the MongoDB error response. -/
theorem faultsCaughtAtBoundary_witness :
    (truthy (some "georgia") && truthy (some "tbilisi") &&
      truthy (some "rustaveli")) = true ∧
    isGeorgia ((some "georgia").getD "") = true ∧
    (validateAddress (.error ()) (.ok none) (.ok none)
        ⟨some "georgia", some "tbilisi", some "rustaveli", none⟩).success = false ∧
    (validateAddress (.error ()) (.ok none) (.ok none)
        ⟨some "georgia", some "tbilisi", some "rustaveli", none⟩).message =
      "MongoDB შეცდომა" := by
  have h := (faultsCaughtAtBoundary (.error ()) (.ok none) (.ok none)
    ⟨some "georgia", some "tbilisi", some "rustaveli", none⟩ (by decide)).1
    (by decide) rfl
  exact ⟨by decide, by decide, h.1, h.2⟩

/-- C9: each suggestion route returns at most ten names, and returns the
empty list whenever the query is shorter than two characters or the
country is not the local-dataset country. -/
theorem suggestionLimitsAndGuards (ps : Except Unit (List Place))
    (fp : Except Unit (Option Place)) (rs : Except Unit (List Road))
    (near : Road → Bool) (city q country : Option String) :
    (citiesHandler ps q country).2.length ≤ 10 ∧
    ((q.getD "").length < 2 → (citiesHandler ps q country).2 = []) ∧
    (isGeorgia (country.getD "") = false → (citiesHandler ps q country).2 = []) ∧
    (streetsHandler fp rs near city q country).2.length ≤ 10 ∧
    ((q.getD "").length < 2 → (streetsHandler fp rs near city q country).2 = []) ∧
    (isGeorgia (country.getD "") = false →
      (streetsHandler fp rs near city q country).2 = []) := by
  refine ⟨?_, ?_, ?_, ?_, ?_, ?_⟩
  · unfold citiesHandler
    split
    · simp
    · split
      · simp
      · cases ps with
        | error e => simp
        | ok l =>
          simp only [List.length_map]
          exact List.length_take_le 10 _
  · intro hq
    unfold citiesHandler
    rw [if_pos (by rw [decide_eq_true hq, Bool.or_true])]
  · intro hng
    unfold citiesHandler
    split
    · rfl
    · rw [if_pos (by rw [hng]; rfl)]
  · unfold streetsHandler
    split
    · simp
    · split
      · simp
      · cases fp with
        | error e => simp
        | ok plOpt =>
          cases plOpt with
          | none => simp
          | some pl =>
            cases rs with
            | error e => simp
            | ok l =>
              simp only [List.length_map]
              exact List.length_take_le 10 _
  · intro hq
    unfold streetsHandler
    rw [if_pos (by rw [decide_eq_true hq, Bool.or_true])]
  · intro hng
    unfold streetsHandler
    split
    · rfl
    · rw [if_pos (by rw [hng]; rfl)]

/-- Witness for C9: a one-character query yields the empty list from both
routes, and the length bound holds on a faulting dataset too. -/
theorem suggestionLimitsAndGuards_witness :
    ("x".length < 2) ∧
    (citiesHandler (.error ()) (some "x") (some "georgia")).2 = [] ∧
    (streetsHandler (.error ()) (.error ()) (fun _ => true)
      (some "tbilisi") (some "x") (some "georgia")).2 = [] ∧
    (citiesHandler (.error ()) (some "ab") (some "georgia")).2.length ≤ 10 := by
  refine ⟨by decide, ?_, ?_, ?_⟩
  · exact (suggestionLimitsAndGuards (.error ()) (.error ()) (.error ())
      (fun _ => true) (some "tbilisi") (some "x") (some "georgia")).2.1 (by decide)
  · exact (suggestionLimitsAndGuards (.error ()) (.error ()) (.error ())
      (fun _ => true) (some "tbilisi") (some "x") (some "georgia")).2.2.2.2.1 (by decide)
  · exact (suggestionLimitsAndGuards (.error ()) (.error ()) (.error ())
      (fun _ => true) (some "tbilisi") (some "ab") (some "georgia")).1

end AddrVal
